import Mathlib

/-!
Verification of the OpenClaw broker/runner against its specification.

This file gives a shallow embedding, in Lean, of the parts of the
OpenClaw job-queue system that the specification's claims are about:

* the broker's job table and its four mutating operations
  (`src/broker/app.py`: `next_job`, `finish_job`, `fail_job`,
  capability matching `_job_matches_worker`);
* the runner's `repo_readfile` handler (`src/runner/runner.py`)
  over an abstract file system;
* the runner's LLM tool loop (`src/runner/llm_loop.py`,
  `src/runner/tool_registry.py`) with the LLM endpoint, the JSON
  argument parse and the tool dispatch given as oracles;
* the runner's command dispatcher `run_job` (`src/runner/runner.py`).

Conventions of the embedding:

* SQLite rows become a `List Job` kept in insertion order; an SQL
  `UPDATE ... WHERE` becomes a `List.map` guarded by the predicate,
  `SELECT ... LIMIT 50` becomes a stable sort + `List.take`.
* Python exceptions become `Except`; calls that the Python code lets
  escape are mod[-]elled as `.error`.
* `json.loads` output is modelled by an explicit JSON value type
  `JVal`; the text-level parse itself is abstracted: a stored
  `requires` column is represented by its decode outcome
  (`ReqDecode`), and the LLM tool-argument parse is an oracle.
* Python integers are `Int` (no overflow), epoch times are `Int`.
-/

namespace OpenClaw

/-! ### Python string primitives -/

/-- The whitespace characters removed by Python `str.strip()`. -/
def pyWhitespaceChars : List Char := [' ', '\t', '\n', '\r', '\x0b', '\x0c']

/-- Python `s.strip()`: remove leading and trailing whitespace. -/
def pyStrip (s : String) : String :=
  String.mk (((s.data.dropWhile (pyWhitespaceChars.contains ·)).reverse.dropWhile
      (pyWhitespaceChars.contains ·)).reverse)

/-- Python `s.split("/")` (single-character separator), written by
structural recursion over the characters so that it evaluates by
definitional reduction. -/
def splitSlashAux : List Char → List Char → List String
  | [], acc => [String.mk acc.reverse]
  | c :: cs, acc =>
    if c == '/' then String.mk acc.reverse :: splitSlashAux cs []
    else splitSlashAux cs (c :: acc)

/-- Python `s.split("/")`. -/
def pySplitSlash (s : String) : List String := splitSlashAux s.data []

/-- Python `s.startswith(pre)` (via the character lists, so that it
evaluates by definitional reduction). -/
def pyStartsWith (s pre : String) : Bool := pre.data.isPrefixOf s.data

/-- Python `s.endswith(suf)`. -/
def pyEndsWith (s suf : String) : Bool := suf.data.isSuffixOf s.data

/-- One step of `posixpath.normpath`'s component scan: skip `""` and `"."`;
keep a component unless it is a collapsible `".."`; pop on a collapsible `".."`. -/
def normpathStep (initSlashes : Nat) (acc : List String) (comp : String) : List String :=
  if comp == "" || comp == "." then acc
  else if comp != ".." || (initSlashes == 0 && acc.isEmpty)
      || (!acc.isEmpty && acc.getLast? == some "..") then acc ++ [comp]
  else if !acc.isEmpty then acc.dropLast
  else acc

/-- Python `os.path.normpath` on POSIX: collapse separators and `"."`,
resolve `".."` textually, preserve up to two leading slashes. -/
def pyNormpath (p : String) : String :=
  if p == "" then "."
  else
    let initSlashes : Nat :=
      if pyStartsWith p "/" then
        (if pyStartsWith p "//" && !(pyStartsWith p "///") then 2 else 1)
      else 0
    let comps := pySplitSlash p
    let newComps := comps.foldl (normpathStep initSlashes) []
    let body := String.intercalate "/" newComps
    let out := String.mk (List.replicate initSlashes '/') ++ body
    if out == "" then "." else out

/-- Python `os.path.join(a, b)` on POSIX for two arguments. -/
def pyJoin (a b : String) : String :=
  if pyStartsWith b "/" then b
  else if a == "" || pyEndsWith a "/" then a ++ b
  else a ++ "/" ++ b

/-- Take the longest prefix of characters whose UTF-8 encoding fits in
`budget` bytes (what `bytes[:n].decode(errors="ignore")` keeps when the
cut falls inside the final character). -/
def takeUtf8Bytes : List Char → Nat → List Char
  | [], _ => []
  | c :: cs, budget =>
    if c.utf8Size ≤ budget then c :: takeUtf8Bytes cs (budget - c.utf8Size)
    else []

/-- `_truncate_for_audit` core: truncate `s` to `maxBytes` UTF-8 bytes;
also report whether truncation happened. -/
def utf8Truncate (s : String) (maxBytes : Nat) : String × Bool :=
  if s.utf8ByteSize ≤ maxBytes then (s, false)
  else (String.mk (takeUtf8Bytes s.data maxBytes), true)

/-! ### JSON values (`json.loads` output) -/

/-- The value produced by a successful `json.loads`.  JSON numbers are
modelled as integers (float formatting plays no role in any claim). -/
inductive JVal where
  | null
  | bool (b : Bool)
  | num (n : Int)
  | str (s : String)
  | arr (elems : List JVal)
  | obj (fields : List (String × JVal))

mutual

/-- Python `repr` of a decoded JSON value (up to `repr`'s escaping of
special characters inside strings, which no claim depends on). -/
def pyRepr : JVal → String
  | .null => "None"
  | .bool b => if b then "True" else "False"
  | .num n => toString n
  | .str s => "'" ++ s ++ "'"
  | .arr xs => "[" ++ String.intercalate ", " (pyReprList xs) ++ "]"
  | .obj kvs => "\x7b" ++ String.intercalate ", " (pyReprPairs kvs) ++ "\x7d"

/-- `pyRepr` mapped over a list of values. -/
def pyReprList : List JVal → List String
  | [] => []
  | v :: vs => pyRepr v :: pyReprList vs

/-- `pyRepr` of the entries of a decoded JSON object. -/
def pyReprPairs : List (String × JVal) → List String
  | [] => []
  | (k, v) :: kvs => ("'" ++ k ++ "': " ++ pyRepr v) :: pyReprPairs kvs

end

/-- Python `str` of a decoded JSON value (`str` of a `str` is itself,
otherwise `repr`). -/
def pyStr : JVal → String
  | .str s => s
  | v => pyRepr v

/-- Python truthiness of a decoded JSON value. -/
def jFalsy : JVal → Bool
  | .null => true
  | .bool b => !b
  | .num n => n == 0
  | .str s => s == ""
  | .arr xs => xs.isEmpty
  | .obj kvs => kvs.isEmpty

/-- Python iteration over a decoded JSON value: lists yield elements,
strings yield characters, dicts yield keys; other values raise
`TypeError` (`none` here). -/
def jElems : JVal → Option (List JVal)
  | .arr xs => some xs
  | .str s => some (s.data.map (fun c => .str (String.singleton c)))
  | .obj kvs => some (kvs.map (fun kv => .str kv.fst))
  | _ => none

/-- Python `dict.get k` on a decoded JSON object (`json.loads` keeps the
last of duplicate keys). -/
def jGet (kvs : List (String × JVal)) (k : String) : Option JVal :=
  (kvs.reverse.find? (fun kv => kv.fst == k)).map (·.snd)

/-! ### Capability matching (`src/broker/app.py` lines 169-202) -/

/-- The uncaught exceptions relevant to the broker's capability parsing:
`_job_required_caps` catches `json.JSONDecodeError` and `TypeError` but
not `AttributeError`. -/
inductive PyErr where
  | attributeError
  | typeError
deriving DecidableEq, Repr

/-- Decode outcome of a (non-NULL) `requires` column text, abstracting the
text-level `json.loads`: `blank` when `requires.strip()` is falsy,
`invalid` when `json.loads` raises `JSONDecodeError`, `val v` when the
text decodes to the JSON value `v`. -/
inductive ReqDecode where
  | blank
  | invalid
  | val (v : JVal)

/-- One element of the `caps` generator in `_job_required_caps`:
`str(c).strip()` for `c` passing `c is not None and str(c).strip()`. -/
def capOfElem (c : JVal) : Option String :=
  match c with
  | .null => none
  | _ =>
    let s := pyStrip (pyStr c)
    if s == "" then none else some s

/-- `_job_required_caps`: parse job `requires` JSON, e.g.
`\x7b"caps": ["llm:vllm"]\x7d`.  Returns the set of caps (as a list with
set semantics) or `none` when the requirement is absent or treated as
invalid.  A decoded value that is not a JSON object raises
`AttributeError` (`obj.get` on a non-dict), which the Python code does
not catch; a non-iterable `caps` value raises `TypeError`, which is
caught and yields `none`. -/
def job_required_caps (requires : Option ReqDecode) : Except PyErr (Option (List String)) :=
  match requires with
  | none => .ok none
  | some .blank => .ok none
  | some .invalid => .ok none
  | some (.val v) =>
    match v with
    | .obj kvs =>
      match jGet kvs "caps" with
      | none => .ok none
      | some .null => .ok none
      | some caps =>
        if jFalsy caps then .ok (some [])
        else
          match jElems caps with
          | none => .ok none
          | some elems => .ok (some (elems.filterMap capOfElem))
    | _ => .error .attributeError

/-- `_job_matches_worker`: true if the job can be claimed by the worker —
`requires` is NULL/empty/invalid, or the job's required caps are a
subset of the worker's caps. -/
def job_matches_worker (requires : Option ReqDecode) (workerCaps : List String) :
    Except PyErr Bool :=
  match job_required_caps requires with
  | .error e => .error e
  | .ok none => .ok true
  | .ok (some required) =>
    if required.isEmpty then .ok true
    else .ok (required.all (workerCaps.contains ·))

/-! ### The broker's job table (`src/broker/app.py`)

A row of the `jobs` table.  The SQLite table is modelled as a
`List Job` in insertion order; `id` is the primary key. -/

structure Job where
  id : String
  created_at : Int
  status : String
  command : String
  payload : String
  result : Option String
  finished_at : Option Int
  error : Option String
  started_at : Option Int
  lease_until : Option Int
  worker_id : Option String
  requires : Option ReqDecode

/-- The requeue predicate of `next_job` step 1:
`status='running' AND lease_until IS NOT NULL AND lease_until < now`. -/
def isStale (now : Int) (j : Job) : Bool :=
  j.status == "running" &&
    (match j.lease_until with
     | some t => t < now
     | none => false)

/-- The `SET` clause of the requeue `UPDATE`: back to `queued` with
`started_at`, `lease_until`, `finished_at`, `result`, `error`,
`worker_id` all cleared.  Rows that are not stale are unchanged. -/
def requeueRow (now : Int) (j : Job) : Job :=
  if isStale now j then
    { j with status := "queued", started_at := none, lease_until := none,
             finished_at := none, result := none, error := none, worker_id := none }
  else j

/-- The `SET` clause of the claim `UPDATE`: `running`, `started_at=now`,
`lease_until=now+LEASE_SECONDS`, `worker_id` from the header, and
`error`, `result`, `finished_at` cleared. -/
def claimRow (now leaseSeconds : Int) (workerId : Option String) (j : Job) : Job :=
  { j with status := "running", started_at := some now,
           lease_until := some (now + leaseSeconds), worker_id := workerId,
           error := none, result := none, finished_at := none }

/-- `worker_id = (x_worker_id or "").strip() or None` in `next_job`. -/
def headerWorkerId (xWorkerId : Option String) : Option String :=
  let s := pyStrip (xWorkerId.getD "")
  if s == "" then none else some s

/-- Stable insertion of a job into a list sorted by `created_at`
ascending (equal keys keep their existing relative order). -/
def insertByCreated (j : Job) : List Job → List Job
  | [] => [j]
  | k :: rest =>
    if j.created_at < k.created_at then j :: k :: rest
    else k :: insertByCreated j rest

/-- Stable sort by `created_at` ascending, modelling
`ORDER BY created_at ASC` (SQLite breaks ties arbitrarily; the spec
allows any deterministic secondary order, here insertion order). -/
def sortByCreated : List Job → List Job
  | [] => []
  | j :: rest => insertByCreated j (sortByCreated rest)

/-- Step 2 of `next_job`:
`SELECT id, requires FROM jobs WHERE status='queued' ORDER BY created_at ASC LIMIT 50`. -/
def queuedCandidates (db : List Job) : List Job :=
  (sortByCreated (db.filter (fun j => j.status == "queued"))).take 50

/-- The candidate scan of `next_job`: walk the candidates in order and
return the first one matching the worker's capabilities; propagate an
exception raised by `_job_matches_worker`. -/
def firstMatching (caps : List String) : List Job → Except PyErr (Option Job)
  | [] => .ok none
  | j :: rest =>
    match job_matches_worker j.requires caps with
    | .error e => .error e
    | .ok true => .ok (some j)
    | .ok false => firstMatching caps rest

/-- `GET /jobs/next` (`next_job`), the atomic claim inside one
`BEGIN IMMEDIATE` transaction: (1) requeue stale running rows,
(2) select the oldest ≤ 50 queued rows and pick the first matching the
worker's capabilities, (3) claim that row with the guarded
`UPDATE ... WHERE id=? AND status='queued'`, treating a row count ≠ 1
as "no job", then re-fetch the claimed row.  The worker capability set
is taken already parsed (`_parse_worker_caps` output). -/
def next_job (now leaseSeconds : Int) (xWorkerId : Option String) (caps : List String)
    (db : List Job) : Except PyErr (Option Job × List Job) :=
  let workerId := headerWorkerId xWorkerId
  let db1 := db.map (requeueRow now)
  match firstMatching caps (queuedCandidates db1) with
  | .error e => .error e
  | .ok none => .ok (none, db1)
  | .ok (some c) =>
    let guard := fun r : Job => r.id == c.id && r.status == "queued"
    let rowcount := (db1.filter guard).length
    let db2 := db1.map (fun r => if guard r then claimRow now leaseSeconds workerId r else r)
    if rowcount != 1 then .ok (none, db2)
    else .ok (db2.find? (fun r => r.id == c.id), db2)

/-- The JSON body of a 200 response from `/jobs/.../result` or
`/jobs/.../fail`: `ok`, `status`, optional `note`. -/
structure PostResp where
  ok : Bool
  status : String
  note : Option String
deriving DecidableEq, Repr

/-- `POST /jobs/.../result` (`finish_job`).  `.error n` is an
`HTTPException` with status code `n`.  The row lookup is
`fetchone` on `SELECT status ... WHERE id=?`; the terminal `UPDATE`
applies to every row matching the `WHERE id=?` clause. -/
def finish_job (now : Int) (jobId : String) (result : String) (db : List Job) :
    Except Nat (PostResp × List Job) :=
  match db.find? (fun r => r.id == jobId) with
  | none => .error 404
  | some j =>
    if j.status == "done" then
      .ok ({ ok := true, status := "done", note := none }, db)
    else if j.status == "failed" then
      .ok ({ ok := true, status := "failed", note := some "already failed; result ignored" }, db)
    else if j.status == "queued" then
      .error 400
    else
      .ok ({ ok := true, status := "done", note := none },
        db.map (fun r =>
          if r.id == jobId then
            { r with status := "done", result := some result,
                     finished_at := some now, lease_until := none }
          else r))

/-- `POST /jobs/.../fail` (`fail_job`).  An empty or whitespace-only
error message is replaced by `"unknown"`. -/
def fail_job (now : Int) (jobId : String) (error : String) (db : List Job) :
    Except Nat (PostResp × List Job) :=
  match db.find? (fun r => r.id == jobId) with
  | none => .error 404
  | some j =>
    if j.status == "done" then
      .ok ({ ok := true, status := "done", note := some "already done; fail ignored" }, db)
    else if j.status == "failed" then
      .ok ({ ok := true, status := "failed", note := none }, db)
    else
      let err := if pyStrip error == "" then "unknown" else pyStrip error
      .ok ({ ok := true, status := "failed", note := none },
        db.map (fun r =>
          if r.id == jobId then
            { r with status := "failed", error := some err,
                     finished_at := some now, lease_until := none }
          else r))

/-! ### The runner's `repo_readfile` (`src/runner/runner.py` lines 222-260) -/

/-- Abstract file system seen by `_repo_readfile`: `realpath` is the OS
canonicalisation (symlinks resolved), `isDir`/`isFile` the `os.path`
tests, `fileSize` is `os.path.getsize`, `fileLines` is
`open(...).readlines()` (decoded UTF-8 with `errors="replace"`; each
entry keeps its newline). -/
structure FSModel where
  realpath : String → String
  isDir : String → Bool
  isFile : String → Bool
  fileSize : String → Int
  fileLines : String → List String

/-- The `data` of a successful `repo_readfile` envelope:
`path`, `start`, `end` (after clamping) and the joined content. -/
structure ReadOut where
  path : String
  startLine : Int
  endLine : Int
  content : String
  truncated : Bool

/-- The slice computation at the end of `_repo_readfile`, on the
`readlines()` output of the validated file: clamp `start` into
`1..max_line` and `end` to `max_line` (raised back to `start1` when the
clamp crosses), cut `lines[start1-1 : end1]`, and apply the final
(actually unreachable) extra line cap with its `truncated` flag. -/
def mkReadOut (path : String) (lines : List String) (maxLines startL endL : Int) : ReadOut :=
  let maxLine : Int := lines.length
  let start1 := max 1 (min startL maxLine)
  let end1 :=
    let e := min endL maxLine
    if e < start1 then start1 else e
  let contentLines := (lines.take end1.toNat).drop (start1 - 1).toNat
  let truncated := endL - startL + 1 > maxLines
  if (contentLines.length : Int) > maxLines then
    { path := path, startLine := start1, endLine := end1,
      content := String.join (contentLines.take maxLines.toNat), truncated := true }
  else
    { path := path, startLine := start1, endLine := end1,
      content := String.join contentLines, truncated := decide truncated }

/-- `_repo_readfile` body, taking the already-resolved repo path
(`resolve_repo_path` output) as `repoPath` and the configured
`RUNNER_MAX_LINES` / `RUNNER_MAX_FILE_BYTES` as parameters.
`.error` is the raised `ValueError` with its message.  The Python
locals `abs_path`, `real_abs`, `real_repo` are written out in place;
the post-validation slice is `mkReadOut`. -/
def repo_readfile (fs : FSModel) (maxLines maxFileBytes : Int)
    (repoPath path : String) (startL endL : Int) : Except String ReadOut :=
  if pyStartsWith path "/" || (pySplitSlash (pyNormpath path)).contains ".." then
    .error "path must be relative and not contain .."
  else if !fs.isDir (pyJoin repoPath ".git") then
    .error "not a git repo"
  else if startL < 1 then
    .error "start must be >= 1"
  else if endL < startL then
    .error "end must be >= start"
  else if endL - startL + 1 > maxLines then
    .error "line range exceeds RUNNER_MAX_LINES"
  else if fs.realpath (pyNormpath (pyJoin repoPath path)) != fs.realpath repoPath &&
      !(pyStartsWith (fs.realpath (pyNormpath (pyJoin repoPath path)))
        (fs.realpath repoPath ++ "/")) then
    .error "path outside repo"
  else if !fs.isFile (fs.realpath (pyNormpath (pyJoin repoPath path))) then
    .error "not a file or not found"
  else if fs.fileSize (fs.realpath (pyNormpath (pyJoin repoPath path))) > maxFileBytes then
    .error "file exceeds RUNNER_MAX_FILE_BYTES"
  else
    .ok (mkReadOut path (fs.fileLines (fs.realpath (pyNormpath (pyJoin repoPath path))))
      maxLines startL endL)

/-! ### The LLM tool loop (`src/runner/llm_loop.py`, `src/runner/tool_registry.py`) -/

/-- One tool call reported by the LLM endpoint (already normalised by
`llm_client.chat_with_tools`). -/
structure ToolCall where
  id : String
  name : String
  arguments : String

/-- The normalised message returned by one `chat_with_tools` call:
`content` may be `none` or a (possibly empty) stripped string;
`tool_calls` is `none` or a list. -/
structure LLMResponse where
  content : Option String
  tool_calls : Option (List ToolCall)

/-- A message of the conversation history sent to the endpoint. -/
inductive Msg where
  | system (content : String)
  | user (content : String)
  | assistant (content : Option String) (tool_calls : List ToolCall)
  | tool (tool_call_id : String) (content : String)

/-- The `args` field of a `tool_calls` audit entry: the raw argument
string when the JSON parse failed, the decoded value otherwise. -/
inductive AuditArgs where
  | raw (s : String)
  | parsed (v : JVal)

/-- One entry of the result envelope's `tool_calls` audit. -/
structure AuditEntry where
  name : String
  args : AuditArgs
  status : String
  truncated_output : String

/-- The `safety` object of the result envelope.  In Python it is a dict:
`truncations` is present only once a truncation happened (`none` here
when absent), `max_steps_reached` only when set (`false` here when
absent), `reason` only on the no-tools fast path. -/
structure Safety where
  truncations : Option Nat
  max_steps_reached : Bool
  reason : Option String

/-- The result envelope of `run_llm_tool_loop`. -/
structure Envelope where
  final : String
  tool_calls : List AuditEntry
  model : String
  worker_id : String
  safety : Safety

/-- The slice of `get_llm_config()` the loop reads.  `allowed_tools` is
a Python set, modelled as a list with set semantics; `max_steps` is the
configured `LLM_TOOL_LOOP_MAX_STEPS`. -/
structure LLMConfig where
  model : String
  allowed_tools : List String
  max_steps : Int

/-- The external behaviour the loop interacts with: `chat` is the LLM
endpoint (`chat_with_tools`) as a function of the history and the tool
schema served (by tool name); `parse` is `parse_tool_args`
(`json.loads` of the argument string); `dispatch` is
`tool_registry.dispatch` closed over `repo_context` and the runner
bridge, with `.error` for any raised exception's message. -/
structure LLMOracles where
  chat : List Msg → List String → LLMResponse
  parse : String → Except String JVal
  dispatch : String → JVal → Except String String

/-- `TOOL_OUTPUT_MAX_BYTES` of `llm_loop.py`. -/
def TOOL_OUTPUT_MAX_BYTES : Nat := 8000

/-- The names of `TOOL_DEFINITIONS` in `tool_registry.py`, in
definition order.  Only the names take part in the claims; each entry's
description and parameter schema are carried by the name. -/
def toolDefNames : List String :=
  ["repo_list", "repo_status", "repo_last_commit", "repo_grep",
   "repo_readfile", "plan_echo", "approve_echo"]

/-- `get_tools_schema`: the `TOOL_DEFINITIONS` entries (by name, in
definition order) filtered to the allowed set. -/
def get_tools_schema (allowedTools : List String) : List String :=
  toolDefNames.filter (fun n => allowedTools.contains n && toolDefNames.contains n)

/-- Accumulator for one round's tool-call processing: the audit so far,
the message history so far, the running truncation count. -/
structure RoundAcc where
  audit : List AuditEntry
  msgs : List Msg
  truncs : Nat

/-- Processing of one tool call inside the round loop: a failed argument
parse or a raising dispatch records an `"error"` audit entry and an
error tool message and moves on; a successful dispatch records the
audit-truncated output. -/
def processCall (o : LLMOracles) (acc : RoundAcc) (tc : ToolCall) : RoundAcc :=
  match o.parse tc.arguments with
  | .error e =>
    { acc with
      audit := acc.audit ++ [⟨tc.name, .raw tc.arguments, "error", e⟩],
      msgs := acc.msgs ++ [.tool tc.id ("Error: " ++ e)] }
  | .ok args =>
    match o.dispatch tc.name args with
    | .error e =>
      let errMsg := if e == "" then "unknown" else e
      { acc with
        audit := acc.audit ++ [⟨tc.name, .parsed args, "error", errMsg⟩],
        msgs := acc.msgs ++ [.tool tc.id ("Error: " ++ errMsg)] }
    | .ok result =>
      let (truncated, wasTruncated) := utf8Truncate result TOOL_OUTPUT_MAX_BYTES
      { audit := acc.audit ++ [⟨tc.name, .parsed args, "ok", truncated⟩],
        msgs := acc.msgs ++ [.tool tc.id truncated],
        truncs := acc.truncs + (if wasTruncated then 1 else 0) }

/-- `for tc in tc_list: ...` — process the round's tool calls in order. -/
def processCalls (o : LLMOracles) (tcs : List ToolCall) (acc : RoundAcc) : RoundAcc :=
  tcs.foldl (processCall o) acc

/-- Python truthiness of the response `content` (`None` and `""` falsy). -/
def contentTruthy : Option String → Bool
  | some s => !(s == "")
  | none => false

/-- `content or None` in the assistant message. -/
def contentOrNone : Option String → Option String
  | some s => if s == "" then none else some s
  | none => none

/-- Result of the `while step < max_steps` loop: the final text if the
model produced one (`none` when the budget ran out), the audit, the
truncation count, and the number of LLM calls made. -/
structure LoopResult where
  finalText : Option String
  audit : List AuditEntry
  truncs : Nat
  llmCalls : Nat

/-- The `while` loop of `run_llm_tool_loop`, with the remaining step
budget as fuel.  Each iteration makes exactly one `chat_with_tools`
call; content without tool calls (or no tool calls at all) ends the
loop with a final text, otherwise the assistant message and the tool
results are appended and the loop continues. -/
def toolLoop (o : LLMOracles) (schema : List String) :
    Nat → List Msg → List AuditEntry → Nat → Nat → LoopResult
  | 0, _, audit, truncs, calls => ⟨none, audit, truncs, calls⟩
  | fuel + 1, msgs, audit, truncs, calls =>
    let resp := o.chat msgs schema
    let calls := calls + 1
    let tcTruthy :=
      match resp.tool_calls with
      | some l => !l.isEmpty
      | none => false
    if contentTruthy resp.content && !tcTruthy then
      ⟨some (resp.content.getD ""), audit, truncs, calls⟩
    else if !tcTruthy then
      let orResp :=
        match resp.content with
        | some s => if s == "" then "(no response)" else s
        | none => "(no response)"
      ⟨some orResp, audit, truncs, calls⟩
    else
      let tcs := resp.tool_calls.getD []
      let assistantMsg := Msg.assistant (contentOrNone resp.content) tcs
      let acc := processCalls o tcs ⟨audit, msgs ++ [assistantMsg], truncs⟩
      toolLoop o schema fuel acc.msgs acc.audit acc.truncs calls

/-- The system message content (the f-string in `run_llm_tool_loop`). -/
def systemContent (maxSteps : Int) : String :=
  "You are a helpful assistant with access to read-only repo tools (repo_list, repo_status, repo_grep, repo_readfile, etc.) " ++
  "and plan_echo/approve_echo. Use the provided tools to answer the user. " ++
  "You have at most " ++ toString maxSteps ++ " tool-call rounds. " ++
  "Tool output may be truncated. When you have enough information, respond with a final answer in plain text (no tool calls)."

/-- `tools_to_use` as computed in `run_llm_tool_loop` lines 36-38:
requested tools filtered to the allowlist, with the full allowlist as
fallback when the request is empty or the filter comes out empty. -/
def effectiveToolList (toolsRequested allowed : List String) : List String :=
  let toUse := if toolsRequested.isEmpty then allowed
               else toolsRequested.filter (allowed.contains ·)
  if toUse.isEmpty then allowed else toUse

/-- Observable outcome of one `run_llm_tool_loop` call: the envelope the
job returns, plus (for the statements below) the number of LLM calls
made, the final text as produced by the model (`none` exactly when the
while-loop exhausted its budget), and the schema served on every call. -/
structure RunTrace where
  envelope : Envelope
  llmCalls : Nat
  modelFinal : Option String
  schemaUsed : List String

/-- `run_llm_tool_loop`: fast path with
`final = "No tools available or configured."` when the filtered schema
is empty, otherwise the bounded tool loop, with the exhaustion final
and `safety.max_steps_reached` when the budget ran out. -/
def run_llm_tool_loop (o : LLMOracles) (prompt : String) (toolsRequested : List String)
    (maxSteps : Int) (config : LLMConfig) (workerId : String) : RunTrace :=
  let toolsToUse := effectiveToolList toolsRequested config.allowed_tools
  let schema := get_tools_schema toolsToUse
  if schema.isEmpty then
    { envelope :=
        { final := "No tools available or configured.", tool_calls := [],
          model := config.model, worker_id := workerId,
          safety := ⟨none, false, some "no_tools"⟩ },
      llmCalls := 0,
      modelFinal := some "No tools available or configured.",
      schemaUsed := schema }
  else
    let messages := [Msg.system (systemContent maxSteps), Msg.user prompt]
    let r := toolLoop o schema maxSteps.toNat messages [] 0 0
    let safetyTr : Option Nat := if r.truncs == 0 then none else some r.truncs
    match r.finalText with
    | some f =>
      { envelope :=
          { final := f, tool_calls := r.audit, model := config.model,
            worker_id := workerId, safety := ⟨safetyTr, false, none⟩ },
        llmCalls := r.llmCalls, modelFinal := some f, schemaUsed := schema }
    | none =>
      { envelope :=
          { final := "Max tool steps reached without final answer.",
            tool_calls := r.audit, model := config.model,
            worker_id := workerId, safety := ⟨safetyTr, true, none⟩ },
        llmCalls := r.llmCalls, modelFinal := none, schemaUsed := schema }

/-- The `max_steps` computation of `run_job`'s `llm_task` branch
(`src/runner/runner.py` lines 481-484): the payload value when the key
is present, otherwise the configured `max_steps`; coerced to int and
raised to 1 when below 1. -/
def effective_max_steps (payloadMaxSteps : Option Int) (config : LLMConfig) : Int :=
  let m := payloadMaxSteps.getD config.max_steps
  if m < 1 then 1 else m

/-! ### The runner's command dispatcher (`src/runner/runner.py` `run_job`) -/

/-- The bodies of the non-trivial command handlers, abstracted: each
returns the handler's result string or the message of the exception it
raises.  Only the dispatch structure of `run_job` — which command names
are recognised, in source order, and the fall-through for everything
else — is modelled concretely; `ping` is kept concrete because its body
is a pure string. -/
structure Handlers where
  capabilities : String → Except String String
  plan_echo : String → Except String String
  approve_echo : String → Except String String
  repo_list : String → Except String String
  repo_status : String → Except String String
  repo_last_commit : String → Except String String
  repo_grep : String → Except String String
  repo_readfile : String → Except String String
  llm_task : String → Except String String

/-- The command vocabulary `run_job` recognises, in source order. -/
def knownCommands : List String :=
  ["ping", "capabilities", "plan_echo", "approve_echo", "repo_list",
   "repo_status", "repo_last_commit", "repo_grep", "repo_readfile", "llm_task"]

/-- `run_job`: dispatch on the command name; any command outside the
vocabulary falls through to the final
`return f"unknown command: \x7bcommand\x7d"`, a normal (non-raising)
result. -/
def run_job (h : Handlers) (command payload : String) : Except String String :=
  if command == "ping" then .ok ("pong: " ++ payload)
  else if command == "capabilities" then h.capabilities payload
  else if command == "plan_echo" then h.plan_echo payload
  else if command == "approve_echo" then h.approve_echo payload
  else if command == "repo_list" then h.repo_list payload
  else if command == "repo_status" then h.repo_status payload
  else if command == "repo_last_commit" then h.repo_last_commit payload
  else if command == "repo_grep" then h.repo_grep payload
  else if command == "repo_readfile" then h.repo_readfile payload
  else if command == "llm_task" then h.llm_task payload
  else .ok ("unknown command: " ++ command)

/-- The worker main-loop body after a successful claim (`main` in
`runner.py`): run the job and post the outcome to the broker —
`/jobs/id/result` when `run_job` returns, `/jobs/id/fail` when it
raises (`str(e) or "unknown"` is applied broker-side by `fail_job`'s
strip-or-default; the worker already sends `str(e) or "unknown"`, and
an empty message is restored to `"unknown"` by either side).  The model
assumes the POST reaches the broker; retry/transport behaviour is out
of scope of the claims below. -/
def workerStep (h : Handlers) (now : Int) (job : Job) (db : List Job) :
    Except Nat (PostResp × List Job) :=
  match run_job h job.command job.payload with
  | .ok result => finish_job now job.id result db
  | .error e =>
    let errMsg := if e == "" then "unknown" else e
    fail_job now job.id errMsg db

/-! ### Concrete instances used by the witness theorems -/

/-- A running job holding a lease, as sitting in the broker DB. -/
def jobRunning : Job :=
  { id := "j1", created_at := 10, status := "running", command := "ping", payload := "x",
    result := none, finished_at := none, error := none, started_at := some 11,
    lease_until := some 50, worker_id := some "w1", requires := none }

/-- A queued job with a capability requirement. -/
def jobQueuedCaps : Job :=
  { id := "j2", created_at := 12, status := "queued", command := "llm_task", payload := "p",
    result := none, finished_at := none, error := none, started_at := none,
    lease_until := none, worker_id := none,
    requires := some (.val (.obj [("caps", .arr [.str "llm:vllm"])])) }

/-- A small broker DB: one running job with an expired lease, one queued
job requiring `llm:vllm`. -/
def dbSample : List Job := [jobRunning, jobQueuedCaps]

/-- File system for the `repo_readfile` witnesses: `/base/repo` is a git
repo containing the three-line file `b.txt`; canonicalisation is the
identity (no symlinks). -/
def fsSample : FSModel :=
  { realpath := fun s => s,
    isDir := fun s => s == "/base/repo/.git",
    isFile := fun s => s == "/base/repo/b.txt",
    fileSize := fun _ => 9,
    fileLines := fun _ => ["l1\n", "l2\n", "l3\n"] }

/-- An LLM endpoint that requests the same tool call on every turn and
never produces a final answer. -/
def oracleAlwaysTool : LLMOracles :=
  { chat := fun _ _ => { content := none, tool_calls := some [⟨"1", "repo_list", "\x7b\x7d"⟩] },
    parse := fun _ => .ok (.obj []),
    dispatch := fun _ _ => .ok "out" }

/-- An LLM endpoint whose first tool call carries malformed argument
JSON, modelling a model mistake. -/
def oracleBadArgs : LLMOracles :=
  { chat := fun _ _ => { content := none, tool_calls := some [⟨"1", "repo_grep", "not json"⟩] },
    parse := fun _ => .error "invalid tool arguments JSON: x",
    dispatch := fun _ _ => .ok "out" }

/-- A configuration with the registry tool `repo_list` allowed and a
configured step cap of 6. -/
def cfgSample : LLMConfig := { model := "m", allowed_tools := ["repo_list"], max_steps := 6 }

/-- A configuration whose allowlist names no registered tool, so no
tool schema can be served. -/
def cfgUnregistered : LLMConfig :=
  { model := "m", allowed_tools := ["custom_tool"], max_steps := 6 }

/-- The audit entry `processCall` appends for one tool call (closed
form used to state what the fold does; proven against `processCall` in
`processCall_eq`). -/
def callAudit (o : LLMOracles) (tc : ToolCall) : AuditEntry :=
  match o.parse tc.arguments with
  | .error e => ⟨tc.name, .raw tc.arguments, "error", e⟩
  | .ok args =>
    match o.dispatch tc.name args with
    | .error e => ⟨tc.name, .parsed args, "error", if e == "" then "unknown" else e⟩
    | .ok result => ⟨tc.name, .parsed args, "ok", (utf8Truncate result TOOL_OUTPUT_MAX_BYTES).1⟩

/-- The tool-response message `processCall` appends for one tool call. -/
def callMsg (o : LLMOracles) (tc : ToolCall) : Msg :=
  match o.parse tc.arguments with
  | .error e => .tool tc.id ("Error: " ++ e)
  | .ok args =>
    match o.dispatch tc.name args with
    | .error e => .tool tc.id ("Error: " ++ (if e == "" then "unknown" else e))
    | .ok result => .tool tc.id (utf8Truncate result TOOL_OUTPUT_MAX_BYTES).1

/-- The truncation-counter increment of one tool call. -/
def callTrunc (o : LLMOracles) (tc : ToolCall) : Nat :=
  match o.parse tc.arguments with
  | .error _ => 0
  | .ok args =>
    match o.dispatch tc.name args with
    | .error _ => 0
    | .ok result => if (utf8Truncate result TOOL_OUTPUT_MAX_BYTES).2 then 1 else 0

/-- Handlers for the dispatcher witnesses (concrete strings). -/
def handlersSample : Handlers :=
  { capabilities := fun _ => .ok "caps", plan_echo := fun _ => .ok "plan",
    approve_echo := fun _ => .ok "appr", repo_list := fun _ => .ok "list",
    repo_status := fun _ => .ok "status", repo_last_commit := fun _ => .ok "last",
    repo_grep := fun _ => .ok "grep", repo_readfile := fun _ => .ok "read",
    llm_task := fun _ => .ok "llm" }

/-- A running job whose command is outside the vocabulary. -/
def jobUnknownCmd : Job :=
  { id := "j9", created_at := 10, status := "running", command := "frobnicate", payload := "z",
    result := none, finished_at := none, error := none, started_at := some 11,
    lease_until := some 150, worker_id := some "w1", requires := none }

/-! ## Theorems -/

/-- Helper: an `UPDATE ... WHERE id=?` (an id-preserving per-row update)
commutes with the `fetchone` lookup by id. -/
theorem find?_update (db : List Job) (jobId : String) (f : Job → Job)
    (hf : ∀ r, (f r).id = r.id) (j : Job)
    (hj : db.find? (fun r => r.id == jobId) = some j) :
    (db.map (fun r => if r.id == jobId then f r else r)).find? (fun r => r.id == jobId) =
      some (f j) := by
  induction db with
  | nil => simp at hj
  | cons a l ih =>
    by_cases h : (a.id == jobId) = true
    · have ha : List.find? (fun r => r.id == jobId) (a :: l) = some a :=
        List.find?_cons_of_pos l h
      rw [ha] at hj
      injection hj with hj'
      subst hj'
      have hfa : ((f a).id == jobId) = true := by
        rw [hf]
        exact h
      calc ((a :: l).map (fun r => if r.id == jobId then f r else r)).find?
              (fun r => r.id == jobId)
          = (f a :: l.map (fun r => if r.id == jobId then f r else r)).find?
              (fun r => r.id == jobId) := by rw [List.map_cons, if_pos h]
        _ = some (f a) := List.find?_cons_of_pos _ hfa
    · have ha : List.find? (fun r => r.id == jobId) (a :: l) =
          List.find? (fun r => r.id == jobId) l := List.find?_cons_of_neg l h
      rw [ha] at hj
      calc ((a :: l).map (fun r => if r.id == jobId then f r else r)).find?
              (fun r => r.id == jobId)
          = (a :: l.map (fun r => if r.id == jobId then f r else r)).find?
              (fun r => r.id == jobId) := by rw [List.map_cons, if_neg h]
        _ = (l.map (fun r => if r.id == jobId then f r else r)).find?
              (fun r => r.id == jobId) := List.find?_cons_of_neg _ h
        _ = some (f j) := ih hj

/-- C2: the capability-matching code raises on a `requires` column whose
text decodes to a non-object JSON value.  `_job_required_caps` calls
`.get("caps")` on the decoded value; for `null`, an array or a string
this raises `AttributeError`, which the surrounding
`except (json.JSONDecodeError, TypeError)` does not catch, so
`GET /jobs/next` errors out instead of treating the job as claimable by
any worker — contradicting the function's own docstring
("Returns set of caps or None if invalid/null"). -/
theorem requires_non_object_raises :
    job_matches_worker (some (.val .null)) [] = .error .attributeError ∧
    job_matches_worker (some (.val (.arr []))) [] = .error .attributeError ∧
    job_matches_worker (some (.val (.str "x"))) ["llm:vllm"] = .error .attributeError :=
  ⟨rfl, rfl, rfl⟩

/-- C4: `POST /jobs/id/result` — 404 when the row is missing; 200
without mutation when already `done` (so a second identical post leaves
the record unchanged) or already `failed` (with the informational
note, the result ignored); 400 without mutation when `queued`; and for
a `running` job the guarded update sets `result`, `finished_at = now`,
clears `lease_until` and moves the status to `done`. -/
theorem finish_job_correct (now now2 : Int) (jobId res : String) (db : List Job) :
    (db.find? (fun r => r.id == jobId) = none →
      finish_job now jobId res db = .error 404) ∧
    (∀ j, db.find? (fun r => r.id == jobId) = some j →
      (j.status = "done" →
        finish_job now jobId res db = .ok (⟨true, "done", none⟩, db)) ∧
      (j.status = "failed" →
        finish_job now jobId res db =
          .ok (⟨true, "failed", some "already failed; result ignored"⟩, db)) ∧
      (j.status = "queued" →
        finish_job now jobId res db = .error 400) ∧
      (j.status = "running" →
        finish_job now jobId res db =
          .ok (⟨true, "done", none⟩,
            db.map (fun r =>
              if r.id == jobId then
                { r with status := "done", result := some res,
                         finished_at := some now, lease_until := none }
              else r)) ∧
        finish_job now2 jobId res
            (db.map (fun r =>
              if r.id == jobId then
                { r with status := "done", result := some res,
                         finished_at := some now, lease_until := none }
              else r)) =
          .ok (⟨true, "done", none⟩,
            db.map (fun r =>
              if r.id == jobId then
                { r with status := "done", result := some res,
                         finished_at := some now, lease_until := none }
              else r)))) := by
  constructor
  · intro h
    simp [finish_job, h]
  · intro j hj
    refine ⟨?_, ?_, ?_, ?_⟩
    · intro hs
      simp [finish_job, hj, hs]
    · intro hs
      simp [finish_job, hj, hs]
    · intro hs
      simp [finish_job, hj, hs]
    · intro hs
      have hupd := find?_update db jobId
        (fun r => { r with status := "done", result := some res,
                           finished_at := some now, lease_until := none })
        (fun _ => rfl) j hj
      constructor
      · simp [finish_job, hj, hs]
      · simp only [finish_job, hupd]
        simp

/-- C4 witness: the theorem applied to a one-row DB holding a running
job. -/
theorem finish_job_correct_witness :
    [jobRunning].find? (fun r => r.id == "j1") = some jobRunning ∧
    jobRunning.status = "running" ∧
    (finish_job 100 "j1" "pong: x" [jobRunning] =
      .ok (⟨true, "done", none⟩,
        [jobRunning].map (fun r =>
          if r.id == "j1" then
            { r with status := "done", result := some "pong: x",
                     finished_at := some 100, lease_until := none }
          else r)) ∧
     finish_job 200 "j1" "pong: x"
        ([jobRunning].map (fun r =>
          if r.id == "j1" then
            { r with status := "done", result := some "pong: x",
                     finished_at := some 100, lease_until := none }
          else r)) =
      .ok (⟨true, "done", none⟩,
        [jobRunning].map (fun r =>
          if r.id == "j1" then
            { r with status := "done", result := some "pong: x",
                     finished_at := some 100, lease_until := none }
          else r))) :=
  ⟨rfl, rfl,
    ((finish_job_correct 100 200 "j1" "pong: x" [jobRunning]).2 jobRunning rfl).2.2.2 rfl⟩

/-- C5: `POST /jobs/id/fail` — 404 when the row is missing; 200 without
mutation when already `done` (with the note) or already `failed`; and
for a `queued` or `running` job the update sets `error` (an empty or
whitespace-only message becomes `"unknown"`), `finished_at = now`,
clears `lease_until` and moves the status to `failed`. -/
theorem fail_job_correct (now : Int) (jobId err : String) (db : List Job) :
    (db.find? (fun r => r.id == jobId) = none →
      fail_job now jobId err db = .error 404) ∧
    (∀ j, db.find? (fun r => r.id == jobId) = some j →
      (j.status = "done" →
        fail_job now jobId err db =
          .ok (⟨true, "done", some "already done; fail ignored"⟩, db)) ∧
      (j.status = "failed" →
        fail_job now jobId err db = .ok (⟨true, "failed", none⟩, db)) ∧
      (j.status = "queued" ∨ j.status = "running" →
        fail_job now jobId err db =
          .ok (⟨true, "failed", none⟩,
            db.map (fun r =>
              if r.id == jobId then
                { r with status := "failed",
                         error := some (if pyStrip err == "" then "unknown" else pyStrip err),
                         finished_at := some now, lease_until := none }
              else r)))) := by
  constructor
  · intro h
    simp [fail_job, h]
  · intro j hj
    refine ⟨?_, ?_, ?_⟩
    · intro hs
      simp [fail_job, hj, hs]
    · intro hs
      simp [fail_job, hj, hs]
    · intro hs
      rcases hs with hs | hs <;> simp [fail_job, hj, hs]

/-- C5 witness: the theorem applied to a running job with a
whitespace-only error message, which is stored as `"unknown"`. -/
theorem fail_job_correct_witness :
    [jobRunning].find? (fun r => r.id == "j1") = some jobRunning ∧
    (jobRunning.status = "queued" ∨ jobRunning.status = "running") ∧
    (fail_job 100 "j1" "  " [jobRunning] =
      .ok (⟨true, "failed", none⟩,
        [jobRunning].map (fun r =>
          if r.id == "j1" then
            { r with status := "failed",
                     error := some (if pyStrip "  " == "" then "unknown" else pyStrip "  "),
                     finished_at := some 100, lease_until := none }
          else r))) :=
  ⟨rfl, Or.inr rfl,
    ((fail_job_correct 100 "j1" "  " [jobRunning]).2 jobRunning rfl).2.2 (Or.inr rfl)⟩

/-- Helper: each iteration of the while loop makes exactly one LLM
call, so the total never exceeds the starting count plus the fuel. -/
theorem toolLoop_calls_le (o : LLMOracles) (schema : List String) :
    ∀ (fuel : Nat) (msgs : List Msg) (audit : List AuditEntry) (truncs calls : Nat),
      (toolLoop o schema fuel msgs audit truncs calls).llmCalls ≤ calls + fuel := by
  intro fuel
  induction fuel with
  | zero =>
    intro msgs audit truncs calls
    simp [toolLoop]
  | succ n ih =>
    intro msgs audit truncs calls
    simp only [toolLoop]
    split
    · simp
    · split
      · simp
      · refine le_trans (ih _ _ _ _) ?_
        omega

/-- Helper: one `run_llm_tool_loop` call makes at most `maxSteps.toNat`
LLM calls (zero on the fast path, the loop bound otherwise). -/
theorem run_llmCalls_le (o : LLMOracles) (prompt : String)
    (toolsRequested : List String) (maxSteps : Int) (config : LLMConfig) (workerId : String) :
    (run_llm_tool_loop o prompt toolsRequested maxSteps config workerId).llmCalls ≤
      maxSteps.toNat := by
  cases hsch : (get_tools_schema (effectiveToolList toolsRequested config.allowed_tools)).isEmpty with
  | true => simp [run_llm_tool_loop, hsch]
  | false =>
    have hb := toolLoop_calls_le o
      (get_tools_schema (effectiveToolList toolsRequested config.allowed_tools))
      maxSteps.toNat [Msg.system (systemContent maxSteps), Msg.user prompt] [] 0 0
    cases hft : (toolLoop o
        (get_tools_schema (effectiveToolList toolsRequested config.allowed_tools))
        maxSteps.toNat [Msg.system (systemContent maxSteps), Msg.user prompt] [] 0 0).finalText with
    | some f => simpa [run_llm_tool_loop, hsch, hft] using hb
    | none => simpa [run_llm_tool_loop, hsch, hft] using hb

/-- C6: the tool loop issues at most `max_steps` LLM calls, and when the
budget is exhausted without a final text from the model, the envelope
carries the exhaustion final and `safety.max_steps_reached = true`. -/
theorem llm_task_bounded_steps (o : LLMOracles) (prompt : String)
    (toolsRequested : List String) (maxSteps : Int) (config : LLMConfig) (workerId : String) :
    (run_llm_tool_loop o prompt toolsRequested maxSteps config workerId).llmCalls ≤
        maxSteps.toNat ∧
    ((run_llm_tool_loop o prompt toolsRequested maxSteps config workerId).modelFinal = none →
      (run_llm_tool_loop o prompt toolsRequested maxSteps config workerId).envelope.final =
          "Max tool steps reached without final answer." ∧
      (run_llm_tool_loop o prompt toolsRequested maxSteps config workerId).envelope.safety.max_steps_reached =
          true) := by
  cases hsch : (get_tools_schema (effectiveToolList toolsRequested config.allowed_tools)).isEmpty with
  | true =>
    constructor
    · simp [run_llm_tool_loop, hsch]
    · intro h
      simp [run_llm_tool_loop, hsch] at h
  | false =>
    have hb := toolLoop_calls_le o
      (get_tools_schema (effectiveToolList toolsRequested config.allowed_tools))
      maxSteps.toNat [Msg.system (systemContent maxSteps), Msg.user prompt] [] 0 0
    cases hft : (toolLoop o
        (get_tools_schema (effectiveToolList toolsRequested config.allowed_tools))
        maxSteps.toNat [Msg.system (systemContent maxSteps), Msg.user prompt] [] 0 0).finalText with
    | some f =>
      constructor
      · simpa [run_llm_tool_loop, hsch, hft] using hb
      · intro h
        simp [run_llm_tool_loop, hsch, hft] at h
    | none =>
      constructor
      · simpa [run_llm_tool_loop, hsch, hft] using hb
      · intro _
        simp [run_llm_tool_loop, hsch, hft]

/-- C6 witness: an endpoint that always answers with a tool call
exhausts a budget of 2 steps; the envelope reports it. -/
theorem llm_task_bounded_steps_witness :
    (run_llm_tool_loop oracleAlwaysTool "p" ["repo_list"] 2 cfgSample "w").modelFinal = none ∧
    ((run_llm_tool_loop oracleAlwaysTool "p" ["repo_list"] 2 cfgSample "w").envelope.final =
        "Max tool steps reached without final answer." ∧
     (run_llm_tool_loop oracleAlwaysTool "p" ["repo_list"] 2 cfgSample "w").envelope.safety.max_steps_reached =
        true) :=
  ⟨rfl, (llm_task_bounded_steps oracleAlwaysTool "p" ["repo_list"] 2 cfgSample "w").2 rfl⟩

/-- Helper: the trace records as `schemaUsed` the filtered schema that
is computed once before the loop and served on every LLM call. -/
theorem run_schemaUsed (o : LLMOracles) (prompt : String) (toolsRequested : List String)
    (maxSteps : Int) (config : LLMConfig) (workerId : String) :
    (run_llm_tool_loop o prompt toolsRequested maxSteps config workerId).schemaUsed =
      get_tools_schema (effectiveToolList toolsRequested config.allowed_tools) := by
  cases hsch : (get_tools_schema (effectiveToolList toolsRequested config.allowed_tools)).isEmpty with
  | true => simp [run_llm_tool_loop, hsch]
  | false =>
    cases hft : (toolLoop o
        (get_tools_schema (effectiveToolList toolsRequested config.allowed_tools))
        maxSteps.toNat [Msg.system (systemContent maxSteps), Msg.user prompt] [] 0 0).finalText with
    | some f => simp [run_llm_tool_loop, hsch, hft]
    | none => simp [run_llm_tool_loop, hsch, hft]

/-- C7: for a job that went through `run_job`'s checks (a non-empty
requested tool list inside the allowlist) and an allowlist of
registered tool names, the schema served to the model consists exactly
of the tools in the intersection of the requested list and the
allowlist; and when the job's effective tool list yields an empty
schema, the handler returns the `no_tools` envelope without a single
LLM call. -/
theorem llm_schema_correct (o : LLMOracles) (prompt : String) (toolsRequested : List String)
    (maxSteps : Int) (config : LLMConfig) (workerId : String) :
    (toolsRequested ≠ [] →
     (∀ t ∈ toolsRequested, t ∈ config.allowed_tools) →
     (∀ t ∈ config.allowed_tools, t ∈ toolDefNames) →
     ∀ t, t ∈ (run_llm_tool_loop o prompt toolsRequested maxSteps config workerId).schemaUsed ↔
        (t ∈ toolsRequested ∧ t ∈ config.allowed_tools)) ∧
    (get_tools_schema (effectiveToolList toolsRequested config.allowed_tools) = [] →
      (run_llm_tool_loop o prompt toolsRequested maxSteps config workerId).envelope =
        { final := "No tools available or configured.", tool_calls := [],
          model := config.model, worker_id := workerId,
          safety := { truncations := none, max_steps_reached := false, reason := some "no_tools" } } ∧
      (run_llm_tool_loop o prompt toolsRequested maxSteps config workerId).llmCalls = 0) := by
  constructor
  · intro h1 h2 h3 t
    rw [run_schemaUsed]
    have hfna : List.filter (fun x => decide (x ∈ config.allowed_tools)) toolsRequested =
        toolsRequested := by
      rw [List.filter_eq_self]
      intro a ha
      simpa using h2 a ha
    have hne : toolsRequested.isEmpty = false := by
      cases toolsRequested with
      | nil => exact absurd rfl h1
      | cons a l => rfl
    have heff : effectiveToolList toolsRequested config.allowed_tools = toolsRequested := by
      simp [effectiveToolList, hne, hfna]
    rw [heff]
    unfold get_tools_schema
    simp only [List.mem_filter, Bool.and_eq_true, List.contains, List.elem_iff]
    constructor
    · rintro ⟨_, hr, _⟩
      exact ⟨hr, h2 t hr⟩
    · rintro ⟨hr, hal⟩
      exact ⟨h3 t hal, hr, h3 t hal⟩
  · intro hempty
    have hsch : (get_tools_schema (effectiveToolList toolsRequested config.allowed_tools)).isEmpty = true := by
      rw [hempty]
      rfl
    constructor
    · simp [run_llm_tool_loop, hsch]
    · simp [run_llm_tool_loop, hsch]

/-- C7 witness: the theorem applied twice — once with a requested,
allowed, registered tool (the served schema is the intersection), once
with an allowlist naming no registered tool (fast path, zero LLM
calls). -/
theorem llm_schema_correct_witness :
    ("repo_list" ∈ (run_llm_tool_loop oracleAlwaysTool "p" ["repo_list"] 2 cfgSample "w").schemaUsed ↔
      ("repo_list" ∈ ["repo_list"] ∧ "repo_list" ∈ cfgSample.allowed_tools)) ∧
    ((run_llm_tool_loop oracleAlwaysTool "p" ["custom_tool"] 2 cfgUnregistered "w").envelope =
      { final := "No tools available or configured.", tool_calls := [],
        model := cfgUnregistered.model, worker_id := "w",
        safety := { truncations := none, max_steps_reached := false, reason := some "no_tools" } } ∧
     (run_llm_tool_loop oracleAlwaysTool "p" ["custom_tool"] 2 cfgUnregistered "w").llmCalls = 0) :=
  ⟨(llm_schema_correct oracleAlwaysTool "p" ["repo_list"] 2 cfgSample "w").1
      (by decide) (by decide) (by decide) "repo_list",
   (llm_schema_correct oracleAlwaysTool "p" ["custom_tool"] 2 cfgUnregistered "w").2
      (by decide)⟩

/-- Helper: what one `processCall` appends, in closed form. -/
theorem processCall_eq (o : LLMOracles) (acc : RoundAcc) (tc : ToolCall) :
    processCall o acc tc =
      ⟨acc.audit ++ [callAudit o tc], acc.msgs ++ [callMsg o tc],
       acc.truncs + callTrunc o tc⟩ := by
  unfold processCall callAudit callMsg callTrunc
  cases hp : o.parse tc.arguments with
  | error e => simp
  | ok args =>
    cases hd : o.dispatch tc.name args with
    | error e => simp [hd]
    | ok result => simp [hd]

/-- Helper: the round loop appends exactly one audit entry and one tool
message per tool call, in order, and sums the truncation increments. -/
theorem processCalls_eq (o : LLMOracles) (tcs : List ToolCall) (acc : RoundAcc) :
    processCalls o tcs acc =
      ⟨acc.audit ++ tcs.map (callAudit o), acc.msgs ++ tcs.map (callMsg o),
       acc.truncs + (tcs.map (callTrunc o)).sum⟩ := by
  induction tcs generalizing acc with
  | nil => simp [processCalls]
  | cons tc rest ih =>
    have hstep : processCalls o (tc :: rest) acc =
        processCalls o rest (processCall o acc tc) := rfl
    rw [hstep, ih, processCall_eq]
    simp [List.append_assoc]
    omega

/-- C9: inside one round of the tool loop, a tool call whose argument
parse fails, or whose dispatch raises, contributes an `"error"` audit
entry and an error tool-response message at its position, and
processing continues: every one of the round's calls contributes
exactly one audit entry and one tool message.  The loop itself has no
failure outcome — parse errors and dispatch exceptions are consumed
here and never escape to fail the job. -/
theorem tool_call_errors_recorded (o : LLMOracles) (tcs : List ToolCall)
    (audit0 : List AuditEntry) (msgs0 : List Msg) (tr0 : Nat) :
    (processCalls o tcs ⟨audit0, msgs0, tr0⟩).audit.length = audit0.length + tcs.length ∧
    (processCalls o tcs ⟨audit0, msgs0, tr0⟩).msgs.length = msgs0.length + tcs.length ∧
    (∀ i tc, tcs[i]? = some tc →
      (∀ e, o.parse tc.arguments = .error e →
        (processCalls o tcs ⟨audit0, msgs0, tr0⟩).audit[audit0.length + i]? =
            some ⟨tc.name, .raw tc.arguments, "error", e⟩ ∧
        (processCalls o tcs ⟨audit0, msgs0, tr0⟩).msgs[msgs0.length + i]? =
            some (.tool tc.id ("Error: " ++ e))) ∧
      (∀ v e, o.parse tc.arguments = .ok v → o.dispatch tc.name v = .error e →
        (processCalls o tcs ⟨audit0, msgs0, tr0⟩).audit[audit0.length + i]? =
            some ⟨tc.name, .parsed v, "error", if e == "" then "unknown" else e⟩ ∧
        (processCalls o tcs ⟨audit0, msgs0, tr0⟩).msgs[msgs0.length + i]? =
            some (.tool tc.id ("Error: " ++ (if e == "" then "unknown" else e))))) := by
  rw [processCalls_eq]
  refine ⟨by simp, by simp, ?_⟩
  intro i tc htc
  have hia : (audit0 ++ tcs.map (callAudit o))[audit0.length + i]? =
      some (callAudit o tc) := by
    rw [List.getElem?_append_right (by omega)]
    simp [htc]
  have him : (msgs0 ++ tcs.map (callMsg o))[msgs0.length + i]? =
      some (callMsg o tc) := by
    rw [List.getElem?_append_right (by omega)]
    simp [htc]
  constructor
  · intro e hp
    constructor
    · rw [hia]
      unfold callAudit
      rw [hp]
    · rw [him]
      unfold callMsg
      rw [hp]
  · intro v e hp hd
    constructor
    · rw [hia]
      unfold callAudit
      simp only [hp, hd]
    · rw [him]
      unfold callMsg
      simp only [hp, hd]

/-- C9 witness: a round with one malformed tool call records the error
at position 0 and the round still contributes exactly one entry. -/
theorem tool_call_errors_recorded_witness :
    (processCalls oracleBadArgs [⟨"1", "repo_grep", "not json"⟩] ⟨[], [], 0⟩).audit.length =
        ([] : List AuditEntry).length + 1 ∧
    ((processCalls oracleBadArgs [⟨"1", "repo_grep", "not json"⟩] ⟨[], [], 0⟩).audit[(0 : Nat)]? =
        some ⟨"repo_grep", .raw "not json", "error", "invalid tool arguments JSON: x"⟩ ∧
     (processCalls oracleBadArgs [⟨"1", "repo_grep", "not json"⟩] ⟨[], [], 0⟩).msgs[(0 : Nat)]? =
        some (.tool "1" ("Error: " ++ "invalid tool arguments JSON: x"))) := by
  have h := tool_call_errors_recorded oracleBadArgs [⟨"1", "repo_grep", "not json"⟩] [] [] 0
  exact ⟨h.1, (h.2.2 0 ⟨"1", "repo_grep", "not json"⟩ rfl).1 "invalid tool arguments JSON: x" rfl⟩

/-- C8 counterexample: with the configured step cap at 6, a payload
`max_steps` of 9 is used as-is — `run_job` performs no upper clamp —
and an endpoint that never finishes drives the loop through 9 LLM
calls, more than the configured max. -/
theorem max_steps_clamp_counterexample :
    cfgSample.max_steps = 6 ∧
    effective_max_steps (some 9) cfgSample = 9 ∧
    (run_llm_tool_loop oracleAlwaysTool "p" ["repo_list"]
        (effective_max_steps (some 9) cfgSample) cfgSample "w").llmCalls = 9 := by
  refine ⟨rfl, rfl, ?_⟩
  rfl

/-- C8 (amended): the handler coerces the payload `max_steps` to an
integer and clamps it from below to 1; it applies no upper clamp, so
the effective budget equals any requested value ≥ 1 and the loop is
bounded by that value (not by the configured max). -/
theorem max_steps_lower_clamp_only (v : Int) (config : LLMConfig) :
    1 ≤ effective_max_steps (some v) config ∧
    (1 ≤ v → effective_max_steps (some v) config = v) ∧
    (∀ (o : LLMOracles) (prompt : String) (tools : List String) (workerId : String),
      (run_llm_tool_loop o prompt tools (effective_max_steps (some v) config)
          config workerId).llmCalls ≤ (effective_max_steps (some v) config).toNat) := by
  refine ⟨?_, ?_, ?_⟩
  · unfold effective_max_steps
    simp only [Option.getD_some]
    split <;> omega
  · intro hv
    unfold effective_max_steps
    simp only [Option.getD_some]
    rw [if_neg (by omega)]
  · intro o prompt tools workerId
    exact run_llmCalls_le o prompt tools _ config workerId

/-- C8 witness: the amended theorem applied at a payload value of 9. -/
theorem max_steps_lower_clamp_only_witness :
    1 ≤ effective_max_steps (some 9) cfgSample ∧
    effective_max_steps (some 9) cfgSample = 9 ∧
    (run_llm_tool_loop oracleAlwaysTool "p" ["repo_list"]
        (effective_max_steps (some 9) cfgSample) cfgSample "w").llmCalls ≤
      (effective_max_steps (some 9) cfgSample).toNat :=
  ⟨(max_steps_lower_clamp_only 9 cfgSample).1,
   (max_steps_lower_clamp_only 9 cfgSample).2.1 (by decide),
   (max_steps_lower_clamp_only 9 cfgSample).2.2 oracleAlwaysTool "p" ["repo_list"] "w"⟩

/-- C10: a command outside the vocabulary is answered with the string
`unknown command: ...` as a normal success value — `run_job` does not
raise — so the worker posts it through `/jobs/id/result` and the
(running) job settles as `done` with that string as its result, not as
`failed`. -/
theorem unknown_command_done (h : Handlers) (cmd : String) (now : Int)
    (db : List Job) (j : Job) (hcmd : cmd ∉ knownCommands) :
    run_job h cmd j.payload = .ok ("unknown command: " ++ cmd) ∧
    (db.find? (fun r => r.id == j.id) = some j → j.status = "running" → j.command = cmd →
      workerStep h now j db =
        .ok (⟨true, "done", none⟩,
          db.map (fun r =>
            if r.id == j.id then
              { r with status := "done", result := some ("unknown command: " ++ cmd),
                       finished_at := some now, lease_until := none }
            else r))) := by
  obtain ⟨h1, h2, h3, h4, h5, h6, h7, h8, h9, h10⟩ :
      cmd ≠ "ping" ∧ cmd ≠ "capabilities" ∧ cmd ≠ "plan_echo" ∧ cmd ≠ "approve_echo" ∧
      cmd ≠ "repo_list" ∧ cmd ≠ "repo_status" ∧ cmd ≠ "repo_last_commit" ∧
      cmd ≠ "repo_grep" ∧ cmd ≠ "repo_readfile" ∧ cmd ≠ "llm_task" := by
    simp [knownCommands] at hcmd
    tauto
  have hrun : run_job h cmd j.payload = .ok ("unknown command: " ++ cmd) := by
    simp [run_job, h1, h2, h3, h4, h5, h6, h7, h8, h9, h10]
  refine ⟨hrun, ?_⟩
  intro hfind hst hjc
  unfold workerStep
  rw [hjc, hrun]
  simp [finish_job, hfind, hst]

/-- C10 witness: the job with command `frobnicate` runs to `done` with
the unknown-command result. -/
theorem unknown_command_done_witness :
    ("frobnicate" ∉ knownCommands) ∧
    run_job handlersSample "frobnicate" jobUnknownCmd.payload =
      .ok ("unknown command: " ++ "frobnicate") ∧
    workerStep handlersSample 100 jobUnknownCmd [jobUnknownCmd] =
      .ok (⟨true, "done", none⟩,
        [jobUnknownCmd].map (fun r =>
          if r.id == jobUnknownCmd.id then
            { r with status := "done", result := some ("unknown command: " ++ "frobnicate"),
                     finished_at := some 100, lease_until := none }
          else r)) := by
  have h := unknown_command_done handlersSample "frobnicate" 100 [jobUnknownCmd]
    jobUnknownCmd (by decide)
  exact ⟨by decide, h.1, h.2 rfl rfl rfl⟩

/-- C3 counterexample: the path `a/../b.txt` contains a
parent-directory component, yet `repo_readfile` accepts it and returns
file content — the code tests `".." in normpath(path)`, and
normalisation removes this interior `..` — so the claim's "raises
whenever the path contains a parent-directory component" fails as
stated.  (The canonical-containment check still confines the read to
the repo root.) -/
theorem repo_readfile_counterexample :
    ".." ∈ pySplitSlash "a/../b.txt" ∧
    (repo_readfile fsSample 400 200000 "/base/repo" "a/../b.txt" 1 2).isOk = true ∧
    ∃ out, repo_readfile fsSample 400 200000 "/base/repo" "a/../b.txt" 1 2 = .ok out ∧
      out.content = "l1\nl2\n" := by
  refine ⟨by decide, rfl, ?_⟩
  exact ⟨_, rfl, rfl⟩

/-- Helper: the slice's `end` comes back clamped to the last line of a
non-empty file whenever the requested `end` lies past end-of-file. -/
theorem mkReadOut_endLine (path : String) (lines : List String) (maxLines startL endL : Int)
    (h1 : 1 ≤ (lines.length : Int)) (h2 : (lines.length : Int) < endL) :
    (mkReadOut path lines maxLines startL endL).endLine = (lines.length : Int) := by
  unfold mkReadOut
  dsimp only
  split_ifs <;> simp only [min_def, max_def] at * <;> split_ifs at * <;> omega

/-- Helper: whatever branch is taken, the returned content is the join
of a selection (sublist) of the file's lines. -/
theorem mkReadOut_content (path : String) (lines : List String) (maxLines startL endL : Int) :
    ∃ ls, (mkReadOut path lines maxLines startL endL).content = String.join ls ∧
      ls.Sublist lines := by
  unfold mkReadOut
  dsimp only
  split_ifs <;>
    first
      | exact ⟨_, rfl,
          ((List.take_sublist _ _).trans (List.drop_sublist _ _)).trans (List.take_sublist _ _)⟩
      | exact ⟨_, rfl, (List.drop_sublist _ _).trans (List.take_sublist _ _)⟩

/-- Helper: a successful `repo_readfile` forces every validation check
to have passed, and the returned record is the `mkReadOut` slice. -/
theorem repo_readfile_ok_elim (fs : FSModel) (maxLines maxFileBytes : Int)
    (repoPath path : String) (startL endL : Int) (out : ReadOut)
    (hok : repo_readfile fs maxLines maxFileBytes repoPath path startL endL = .ok out) :
    out = mkReadOut path (fs.fileLines (fs.realpath (pyNormpath (pyJoin repoPath path))))
        maxLines startL endL ∧
    (fs.realpath (pyNormpath (pyJoin repoPath path)) != fs.realpath repoPath &&
      !(pyStartsWith (fs.realpath (pyNormpath (pyJoin repoPath path)))
        (fs.realpath repoPath ++ "/"))) = false := by
  unfold repo_readfile at hok
  by_cases h1 : (pyStartsWith path "/" || (pySplitSlash (pyNormpath path)).contains "..") = true
  · rw [if_pos h1] at hok
    exact Except.noConfusion hok
  · rw [if_neg h1] at hok
    by_cases h2 : (!fs.isDir (pyJoin repoPath ".git")) = true
    · rw [if_pos h2] at hok
      exact Except.noConfusion hok
    · rw [if_neg h2] at hok
      by_cases h3 : startL < 1
      · rw [if_pos h3] at hok
        exact Except.noConfusion hok
      · rw [if_neg h3] at hok
        by_cases h4 : endL < startL
        · rw [if_pos h4] at hok
          exact Except.noConfusion hok
        · rw [if_neg h4] at hok
          by_cases h5 : endL - startL + 1 > maxLines
          · rw [if_pos h5] at hok
            exact Except.noConfusion hok
          · rw [if_neg h5] at hok
            by_cases h6 : (fs.realpath (pyNormpath (pyJoin repoPath path)) != fs.realpath repoPath &&
                !(pyStartsWith (fs.realpath (pyNormpath (pyJoin repoPath path)))
                  (fs.realpath repoPath ++ "/"))) = true
            · rw [if_pos h6] at hok
              exact Except.noConfusion hok
            · rw [if_neg h6] at hok
              by_cases h7 : (!fs.isFile (fs.realpath (pyNormpath (pyJoin repoPath path)))) = true
              · rw [if_pos h7] at hok
                exact Except.noConfusion hok
              · rw [if_neg h7] at hok
                by_cases h8 : fs.fileSize (fs.realpath (pyNormpath (pyJoin repoPath path))) >
                    maxFileBytes
                · rw [if_pos h8] at hok
                  exact Except.noConfusion hok
                · rw [if_neg h8] at hok
                  injection hok with hout
                  rw [Bool.not_eq_true] at h6
                  exact ⟨hout.symm, h6⟩

/-- C3 (amended): `repo_readfile` raises (returning no content) whenever
the path is absolute or its normalised form retains a parent-directory
component, or the canonical joined path falls outside the canonical
repo root, or the file size exceeds the byte budget, or the requested
range violates `1 ≤ start ≤ end` or exceeds the line budget; on
success with a non-empty file an `end` past end-of-file comes back
clamped to the last line; and any returned content is a selection of
lines of the file at the canonical joined path, which lies at or under
the canonical repo root. -/
theorem repo_readfile_safe (fs : FSModel) (maxLines maxFileBytes : Int)
    (repoPath path : String) (startL endL : Int) :
    (pyStartsWith path "/" = true ∨ ".." ∈ pySplitSlash (pyNormpath path) →
      (repo_readfile fs maxLines maxFileBytes repoPath path startL endL).isOk = false) ∧
    (fs.realpath (pyNormpath (pyJoin repoPath path)) ≠ fs.realpath repoPath →
      pyStartsWith (fs.realpath (pyNormpath (pyJoin repoPath path)))
          (fs.realpath repoPath ++ "/") = false →
      (repo_readfile fs maxLines maxFileBytes repoPath path startL endL).isOk = false) ∧
    (fs.fileSize (fs.realpath (pyNormpath (pyJoin repoPath path))) > maxFileBytes →
      (repo_readfile fs maxLines maxFileBytes repoPath path startL endL).isOk = false) ∧
    (startL < 1 ∨ endL < startL ∨ endL - startL + 1 > maxLines →
      (repo_readfile fs maxLines maxFileBytes repoPath path startL endL).isOk = false) ∧
    (∀ out, repo_readfile fs maxLines maxFileBytes repoPath path startL endL = .ok out →
      1 ≤ ((fs.fileLines (fs.realpath (pyNormpath (pyJoin repoPath path)))).length : Int) →
      ((fs.fileLines (fs.realpath (pyNormpath (pyJoin repoPath path)))).length : Int) < endL →
      out.endLine = ((fs.fileLines (fs.realpath (pyNormpath (pyJoin repoPath path)))).length : Int)) ∧
    (∀ out, repo_readfile fs maxLines maxFileBytes repoPath path startL endL = .ok out →
      (fs.realpath (pyNormpath (pyJoin repoPath path)) = fs.realpath repoPath ∨
       pyStartsWith (fs.realpath (pyNormpath (pyJoin repoPath path)))
          (fs.realpath repoPath ++ "/") = true) ∧
      ∃ ls, out.content = String.join ls ∧
        ls.Sublist (fs.fileLines (fs.realpath (pyNormpath (pyJoin repoPath path))))) := by
  refine ⟨?_, ?_, ?_, ?_, ?_, ?_⟩
  · intro hrel
    have hc : (pyStartsWith path "/" || (pySplitSlash (pyNormpath path)).contains "..") = true := by
      rcases hrel with h | h
      · simp [h]
      · simp [h]
    unfold repo_readfile
    rw [if_pos hc]
    rfl
  · intro hne hsw
    unfold repo_readfile
    split_ifs with hA hB hC hD hE hF hG hH <;>
      first
        | rfl
        | exact absurd (by simp [bne_iff_ne, hne, hsw]) hF
  · intro hsz
    unfold repo_readfile
    split_ifs <;> rfl
  · intro hrange
    rcases hrange with h | h | h <;>
      (unfold repo_readfile; split_ifs <;> rfl)
  · intro out hok h1len hlen
    obtain ⟨hout, -⟩ := repo_readfile_ok_elim fs maxLines maxFileBytes repoPath path
      startL endL out hok
    rw [hout]
    exact mkReadOut_endLine _ _ _ _ _ h1len hlen
  · intro out hok
    obtain ⟨hout, hbool⟩ := repo_readfile_ok_elim fs maxLines maxFileBytes repoPath path
      startL endL out hok
    constructor
    · by_cases heq : fs.realpath (pyNormpath (pyJoin repoPath path)) = fs.realpath repoPath
      · exact Or.inl heq
      · right
        by_cases hsw : pyStartsWith (fs.realpath (pyNormpath (pyJoin repoPath path)))
            (fs.realpath repoPath ++ "/") = true
        · exact hsw
        · rw [Bool.not_eq_true] at hsw
          have htrue : (fs.realpath (pyNormpath (pyJoin repoPath path)) != fs.realpath repoPath &&
              !(pyStartsWith (fs.realpath (pyNormpath (pyJoin repoPath path)))
                (fs.realpath repoPath ++ "/"))) = true := by
            simp [bne_iff_ne, heq, hsw]
          rw [htrue] at hbool
          exact Bool.noConfusion hbool
    · rw [hout]
      exact mkReadOut_content _ _ _ _ _

/-- C3 witness: the amended theorem applied to a concrete file system —
an absolute path errors; a read of lines 2..100 of a 3-line file comes
back with `end` clamped to 3; the canonical read path stays under the
repo root. -/
theorem repo_readfile_safe_witness :
    (repo_readfile fsSample 400 200000 "/base/repo" "/etc/passwd" 1 2).isOk = false ∧
    (⟨"b.txt", 2, 3, "l2\nl3\n", false⟩ : ReadOut).endLine =
      ((fsSample.fileLines (fsSample.realpath (pyNormpath (pyJoin "/base/repo" "b.txt")))).length : Int) ∧
    (fsSample.realpath (pyNormpath (pyJoin "/base/repo" "b.txt")) =
        fsSample.realpath "/base/repo" ∨
     pyStartsWith (fsSample.realpath (pyNormpath (pyJoin "/base/repo" "b.txt")))
        (fsSample.realpath "/base/repo" ++ "/") = true) :=
  ⟨(repo_readfile_safe fsSample 400 200000 "/base/repo" "/etc/passwd" 1 2).1 (Or.inl rfl),
   (repo_readfile_safe fsSample 400 200000 "/base/repo" "b.txt" 2 100).2.2.2.2.1
      ⟨"b.txt", 2, 3, "l2\nl3\n", false⟩ rfl (by decide) (by decide),
   ((repo_readfile_safe fsSample 400 200000 "/base/repo" "b.txt" 2 100).2.2.2.2.2
      ⟨"b.txt", 2, 3, "l2\nl3\n", false⟩ rfl).1⟩

/-- Helper: the requeue `UPDATE` never touches a row's id. -/
theorem requeueRow_id (now : Int) (j : Job) : (requeueRow now j).id = j.id := by
  unfold requeueRow
  split_ifs <;> rfl

/-- Helper: the requeue `UPDATE` never touches a row's `requires`. -/
theorem requeueRow_requires (now : Int) (j : Job) :
    (requeueRow now j).requires = j.requires := by
  unfold requeueRow
  split_ifs <;> rfl

/-- Helper: membership is preserved by the stable insertion. -/
theorem mem_insertByCreated (a j : Job) (l : List Job) :
    a ∈ insertByCreated j l ↔ a = j ∨ a ∈ l := by
  induction l with
  | nil => simp [insertByCreated]
  | cons k rest ih =>
    unfold insertByCreated
    split_ifs with h
    · simp [or_comm, or_assoc, or_left_comm]
    · simp [ih]
      tauto

/-- Helper: the stable sort by `created_at` is a permutation
membership-wise. -/
theorem mem_sortByCreated (a : Job) (l : List Job) :
    a ∈ sortByCreated l ↔ a ∈ l := by
  induction l with
  | nil => simp [sortByCreated]
  | cons j rest ih =>
    unfold sortByCreated
    rw [mem_insertByCreated, ih]
    simp

/-- Helper: every claim candidate is a queued row of the table. -/
theorem candidates_sound (c : Job) (l : List Job) (h : c ∈ queuedCandidates l) :
    c ∈ l ∧ c.status == "queued" := by
  unfold queuedCandidates at h
  have h2 := List.mem_of_mem_take h
  rw [mem_sortByCreated] at h2
  have h3 := List.mem_filter.mp h2
  exact ⟨h3.1, h3.2⟩

/-- Helper: the candidate scan cannot raise when every row's `requires`
is well formed. -/
theorem firstMatching_total (caps : List String) (l : List Job)
    (h : ∀ j ∈ l, (job_matches_worker j.requires caps).isOk = true) :
    ∃ o, firstMatching caps l = .ok o := by
  induction l with
  | nil => exact ⟨none, rfl⟩
  | cons j rest ih =>
    cases hm : job_matches_worker j.requires caps with
    | error e =>
      have := h j (by simp)
      rw [hm] at this
      simp [Except.isOk, Except.toBool] at this
    | ok b =>
      cases b with
      | true => exact ⟨some j, by simp [firstMatching, hm]⟩
      | false =>
        obtain ⟨o, ho⟩ := ih (fun r hr => h r (by simp [hr]))
        exact ⟨o, by simp [firstMatching, hm, ho]⟩

/-- Helper: a found candidate comes from the scanned list and matches
the worker's capabilities. -/
theorem firstMatching_some (caps : List String) (l : List Job) (c : Job)
    (h : firstMatching caps l = .ok (some c)) :
    c ∈ l ∧ job_matches_worker c.requires caps = .ok true := by
  induction l with
  | nil => simp [firstMatching] at h
  | cons j rest ih =>
    unfold firstMatching at h
    cases hm : job_matches_worker j.requires caps with
    | error e =>
      rw [hm] at h
      exact Except.noConfusion h
    | ok b =>
      rw [hm] at h
      cases b with
      | true =>
        injection h with h'
        injection h' with h''
        subst h''
        exact ⟨by simp, hm⟩
      | false =>
        obtain ⟨hmem, hmatch⟩ := ih h
        exact ⟨by simp [hmem], hmatch⟩

/-- Helper: with unique ids, two rows sharing an id are the same row. -/
theorem nodup_id_eq (l : List Job) (hid : (l.map Job.id).Nodup) (r c : Job)
    (hr : r ∈ l) (hc : c ∈ l) (h : r.id = c.id) : r = c := by
  induction l with
  | nil => simp at hr
  | cons a rest ih =>
    rw [List.map_cons, List.nodup_cons] at hid
    rcases List.mem_cons.mp hr with hr' | hr' <;>
      rcases List.mem_cons.mp hc with hc' | hc'
    · rw [hr', hc']
    · exfalso
      apply hid.1
      rw [← hr', h]
      exact List.mem_map.mpr ⟨c, hc', rfl⟩
    · exfalso
      apply hid.1
      rw [← hc', ← h]
      exact List.mem_map.mpr ⟨r, hr', rfl⟩
    · exact ih hid.2 hr' hc'

/-- Helper: with unique ids, the guarded claim `UPDATE`'s
`WHERE id=? AND status='queued'` matches exactly the one queued row. -/
theorem filter_guard_eq (l : List Job) (c : Job) (hid : (l.map Job.id).Nodup)
    (hc : c ∈ l) (hq : c.status == "queued") :
    l.filter (fun r => r.id == c.id && r.status == "queued") = [c] := by
  induction l with
  | nil => simp at hc
  | cons a rest ih =>
    rw [List.map_cons, List.nodup_cons] at hid
    rcases List.mem_cons.mp hc with hc' | hc'
    · subst hc'
      rw [List.filter_cons_of_pos (by simp [hq])]
      have hrest : rest.filter (fun r => r.id == c.id && r.status == "queued") = [] := by
        rw [List.filter_eq_nil_iff]
        intro r hr
        have hne : r.id ≠ c.id := by
          intro heq
          exact hid.1 (heq ▸ List.mem_map.mpr ⟨r, hr, rfl⟩)
        simp [hne]
      rw [hrest]
    · have haid : a.id ≠ c.id := by
        intro heq
        exact hid.1 (heq ▸ List.mem_map.mpr ⟨c, hc', rfl⟩)
      rw [List.filter_cons_of_neg (by simp [haid])]
      exact ih hid.2 hc'

/-- Helper: with unique ids, the guarded per-row update equals the
replacement of the single claimed row. -/
theorem map_guard_eq (now ls : Int) (wid : Option String) (l : List Job) (c : Job)
    (hid : (l.map Job.id).Nodup) (hc : c ∈ l) (hq : c.status == "queued") :
    l.map (fun r =>
        if r.id == c.id && r.status == "queued" then claimRow now ls wid r else r) =
      l.map (fun r => if r.id = c.id then claimRow now ls wid c else r) := by
  apply List.map_congr_left
  intro r hr
  by_cases h : r.id = c.id
  · have hrc : r = c := nodup_id_eq l hid r c hr hc h
    subst hrc
    simp [hq]
  · simp [h]

/-- Helper: the re-fetch by id after the single-row replacement finds
the replaced row. -/
theorem find?_map_replace (l : List Job) (c j : Job) (hjid : j.id = c.id) (hc : c ∈ l) :
    (l.map (fun r => if r.id = c.id then j else r)).find? (fun r => r.id == c.id) =
      some j := by
  induction l with
  | nil => simp at hc
  | cons a rest ih =>
    rw [List.map_cons]
    by_cases ha : a.id = c.id
    · rw [if_pos ha]
      exact List.find?_cons_of_pos _ (by simp [hjid])
    · rw [if_neg ha]
      rw [List.find?_cons_of_neg _ (by simp [ha])]
      rcases List.mem_cons.mp hc with hc' | hc'
      · exact absurd (hc' ▸ rfl) ha
      · exact ih hc'

/-- C1: the atomic claim, under well-formed `requires` columns and
unique ids.  The endpoint never raises; when no candidate matches, the
table is exactly the requeued table (every stale running row reset to
`queued` with `started_at`, `lease_until`, `worker_id`, `finished_at`,
`result`, `error` cleared — see `requeueRow` — and nothing else
changed) and the response is `job: null`; when the scan over the 50
oldest queued rows finds a first capability-matching candidate, exactly
that row is replaced by its claimed version — `running`,
`started_at = now`, `lease_until = now + LEASE_SECONDS`, `worker_id`
from the header or null, `result`/`error`/`finished_at` cleared — and
the claimed row is returned. -/
theorem next_job_correct (now ls : Int) (xwid : Option String) (caps : List String)
    (db : List Job)
    (hok : ∀ j ∈ db, (job_matches_worker j.requires caps).isOk = true)
    (hid : (db.map Job.id).Nodup) :
    ∃ out db2, next_job now ls xwid caps db = .ok (out, db2) ∧
      (out = none → db2 = db.map (requeueRow now) ∧
        firstMatching caps (queuedCandidates (db.map (requeueRow now))) = .ok none) ∧
      (∀ j, out = some j → ∃ c,
        firstMatching caps (queuedCandidates (db.map (requeueRow now))) = .ok (some c) ∧
        job_matches_worker c.requires caps = .ok true ∧
        j = claimRow now ls (headerWorkerId xwid) c ∧
        j.status = "running" ∧ j.started_at = some now ∧ j.lease_until = some (now + ls) ∧
        j.worker_id = headerWorkerId xwid ∧ j.result = none ∧ j.error = none ∧
        j.finished_at = none ∧
        db2 = (db.map (requeueRow now)).map
          (fun r => if r.id = c.id then claimRow now ls (headerWorkerId xwid) c else r)) := by
  have hok1 : ∀ r ∈ db.map (requeueRow now),
      (job_matches_worker r.requires caps).isOk = true := by
    intro r hr
    obtain ⟨a, ha, rfl⟩ := List.mem_map.mp hr
    rw [requeueRow_requires]
    exact hok a ha
  have hid1 : ((db.map (requeueRow now)).map Job.id).Nodup := by
    rw [List.map_map]
    have : db.map (Job.id ∘ requeueRow now) = db.map Job.id :=
      List.map_congr_left (fun a _ => requeueRow_id now a)
    rw [this]
    exact hid
  obtain ⟨o, hfm⟩ := firstMatching_total caps
    (queuedCandidates (db.map (requeueRow now)))
    (fun j hj => hok1 j (candidates_sound j _ hj).1)
  cases o with
  | none =>
    refine ⟨none, db.map (requeueRow now), ?_, ?_, ?_⟩
    · unfold next_job
      dsimp only
      rw [hfm]
    · intro _
      exact ⟨rfl, hfm⟩
    · intro j hj
      exact Option.noConfusion hj
  | some c =>
    obtain ⟨hcc, hcm⟩ := firstMatching_some caps _ c hfm
    obtain ⟨hcdb, hcq⟩ := candidates_sound c _ hcc
    have hfil := filter_guard_eq (db.map (requeueRow now)) c hid1 hcdb hcq
    have hmap := map_guard_eq now ls (headerWorkerId xwid) (db.map (requeueRow now)) c
      hid1 hcdb hcq
    have hfind := find?_map_replace (db.map (requeueRow now)) c
      (claimRow now ls (headerWorkerId xwid) c) rfl hcdb
    refine ⟨some (claimRow now ls (headerWorkerId xwid) c),
      (db.map (requeueRow now)).map
        (fun r => if r.id = c.id then claimRow now ls (headerWorkerId xwid) c else r),
      ?_, ?_, ?_⟩
    · unfold next_job
      dsimp only
      rw [hfm]
      dsimp only
      rw [hfil, hmap]
      rw [if_neg (by simp)]
      rw [hfind]
    · intro h
      exact Option.noConfusion h
    · intro j hj
      injection hj with hj'
      subst hj'
      exact ⟨c, hfm, hcm, rfl, rfl, rfl, rfl, rfl, rfl, rfl, rfl, rfl⟩

/-- C1 witness: the theorem applied to a two-row table — a stale
running job and a queued job with a capability requirement — claimed by
a worker offering `llm:vllm` whose id header carries stray spaces. -/
theorem next_job_correct_witness :
    ∃ out db2, next_job 100 60 (some " w2 ") ["llm:vllm"] dbSample = .ok (out, db2) ∧
      (out = none → db2 = dbSample.map (requeueRow 100) ∧
        firstMatching ["llm:vllm"] (queuedCandidates (dbSample.map (requeueRow 100))) =
          .ok none) ∧
      (∀ j, out = some j → ∃ c,
        firstMatching ["llm:vllm"] (queuedCandidates (dbSample.map (requeueRow 100))) =
          .ok (some c) ∧
        job_matches_worker c.requires ["llm:vllm"] = .ok true ∧
        j = claimRow 100 60 (headerWorkerId (some " w2 ")) c ∧
        j.status = "running" ∧ j.started_at = some 100 ∧ j.lease_until = some (100 + 60) ∧
        j.worker_id = headerWorkerId (some " w2 ") ∧ j.result = none ∧ j.error = none ∧
        j.finished_at = none ∧
        db2 = (dbSample.map (requeueRow 100)).map
          (fun r => if r.id = c.id then claimRow 100 60 (headerWorkerId (some " w2 ")) c
                    else r)) :=
  next_job_correct 100 60 (some " w2 ") ["llm:vllm"] dbSample (by decide) (by decide)

end OpenClaw
